import Mathlib

/-!
Verification of the GHMonitoring polling-and-aggregation pipeline.

This file embeds, as pure Lean functions, the core logic of the
repository:

* the Stats Engine (`TaskProcessorService` in src/unnamed/part_001),
* the Persistence Reconciler (`TaskRepository` in
  src/backend/src/config/index.ts, schema in src/unnamed/part_004),
* the Poll Scheduler (`PollingService` in
  src/backend/src/services/polling-service.ts),
* the Task Normalizer (`transformItemToTask` in
  src/backend/src/services/github-fetcher.ts),
* the History Backfill (src/backend/src/database/backfill-history.ts),

and proves the behavioural properties stated in the specification.

Timestamps are modelled as natural numbers counting minutes since an
arbitrary epoch in the (single) local time zone; a calendar day holds
`minutesPerDay = 1440` minutes, so the calendar day of a timestamp `t`
is `t / 1440` and the local-midnight timestamp used by the JS code
(`new Date(y, m, d)`) is `t / 1440 * 1440`.
-/

namespace GHMonitoring

/-- Minutes per calendar day; the granularity used to strip time of day. -/
def minutesPerDay : Nat := 1440

/-- Calendar day index of a timestamp. -/
def dayOf (t : Nat) : Nat := t / minutesPerDay

/-- Local-midnight timestamp of the calendar day containing `t`;
models `new Date(d.getFullYear(), d.getMonth(), d.getDate())`. -/
def dateOnly (t : Nat) : Nat := t / minutesPerDay * minutesPerDay

/-- Task type discriminant (src/unnamed/part_002, `Task.type`). -/
inductive TaskType where
  | ISSUE
  | PULL_REQUEST
  | DRAFT_ISSUE
deriving DecidableEq

/-- Task lifecycle state (src/unnamed/part_002, `Task.state`). -/
inductive TaskState where
  | OPEN
  | CLOSED
  | MERGED
deriving DecidableEq

/-- In-memory `Task` record (src/unnamed/part_002). -/
structure Task where
  id : String
  githubId : String
  title : String
  number : Nat
  type : TaskType
  state : TaskState
  status : Option String
  repository : Option String
  assignees : List String
  createdAt : Nat
  updatedAt : Nat
  dueDate : Option Nat
  addedToProjectAt : Option Nat
deriving DecidableEq

/-- Aggregate statistics (src/unnamed/part_002, `TaskStats`). -/
structure TaskStats where
  total : Nat
  open' : Nat
  closed : Nat
  overdue : Nat
  overdueList : List Task
deriving DecidableEq

/-- `TaskProcessorService.isOverdue` (src/unnamed/part_001 lines 10-27):
no due date, or a closed/merged state, is never overdue; otherwise the
due date with time of day stripped is compared against today's date
with time of day stripped, inclusively. `now` is the injected current
time (`new Date()` in the source). -/
def isOverdue (now : Nat) (t : Task) : Bool :=
  match t.dueDate with
  | none => false
  | some due =>
    if t.state = TaskState.CLOSED ∨ t.state = TaskState.MERGED then false
    else dateOnly due ≤ dateOnly now

/-- `TaskProcessorService.calculateStats` (src/unnamed/part_001 lines 32-53). -/
def calculateStats (now : Nat) (tasks : List Task) : TaskStats :=
  { total := tasks.length
    open' := (tasks.filter (fun t => t.state = TaskState.OPEN)).length
    closed := (tasks.filter
      (fun t => t.state = TaskState.CLOSED ∨ t.state = TaskState.MERGED)).length
    overdue := (tasks.filter (fun t => isOverdue now t)).length
    overdueList := tasks.filter (fun t => isOverdue now t) }

/-- Stored row of the `tasks` table (src/unnamed/part_004 lines 4-20):
serial primary key `id`, unique `github_id`, unique `project_item_id`. -/
structure TaskRow where
  id : Nat
  githubId : String
  projectItemId : String
  title : String
  number : Nat
  type : TaskType
  state : TaskState
  status : Option String
  repository : Option String
  createdAt : Nat
  updatedAt : Nat
  dueDate : Option Nat
  addedToProjectAt : Option Nat
  lastSyncedAt : Nat
deriving DecidableEq

/-- Row of `task_assignments` (src/unnamed/part_004 lines 23-31). -/
structure AssignmentRow where
  taskId : Nat
  assignee : String
  assignedAt : Nat
  unassignedAt : Option Nat
deriving DecidableEq

/-- Row of `task_snapshots` (src/unnamed/part_004 lines 33-41). The
primary key is a serial that never repeats, and the table declares no
other unique constraint. -/
structure SnapshotRow where
  snapshotDate : Nat
  taskId : Nat
  state : TaskState
  status : Option String
  isOverdue : Option Bool
deriving DecidableEq

/-- Row of `daily_statistics` (src/unnamed/part_004 lines 43-52),
unique on `snapshot_date`. -/
structure DailyStatRow where
  snapshotDate : Nat
  totalTasks : Nat
  openTasks : Nat
  closedTasks : Nat
  overdueTasks : Nat
  createdAt : Nat
deriving DecidableEq

/-- The relational store. -/
structure Db where
  tasks : List TaskRow
  assignments : List AssignmentRow
  snapshots : List SnapshotRow
  dailyStats : List DailyStatRow
deriving DecidableEq

/-- Fresh serial id for an insert into `tasks`. -/
def freshTaskId (rows : List TaskRow) : Nat :=
  (rows.map (fun r => r.id)).foldr max 0 + 1

/-- The `DO UPDATE SET` arm of the upsert statement in
`TaskRepository.upsertTask` and `upsertTasks`: it assigns only title,
state, status, updated_at, due_date and last_synced_at. -/
def applyTaskUpdate (r : TaskRow) (t : Task) (now : Nat) : TaskRow :=
  { r with
    title := t.title
    state := t.state
    status := t.status
    updatedAt := t.updatedAt
    dueDate := t.dueDate
    lastSyncedAt := now }

/-- The INSERT arm of the upsert statement. -/
def insertedTaskRow (id : Nat) (t : Task) (now : Nat) : TaskRow :=
  { id := id, githubId := t.githubId, projectItemId := t.id,
    title := t.title, number := t.number, type := t.type,
    state := t.state, status := t.status, repository := t.repository,
    createdAt := t.createdAt, updatedAt := t.updatedAt,
    dueDate := t.dueDate, addedToProjectAt := t.addedToProjectAt,
    lastSyncedAt := now }

/-- One execution of the upsert SQL (config/index.ts lines 34-47 and
75-88, identical statements). `ON CONFLICT (github_id)` names only the
github_id arbiter: when a row with the task's github_id exists the
update arm runs on it; otherwise the insert proceeds and can still
violate the unique constraint on project_item_id, which surfaces as an
error. -/
def upsertTaskRow (rows : List TaskRow) (t : Task) (now : Nat) :
    Except String (List TaskRow) :=
  if rows.any (fun r => r.githubId = t.githubId) then
    Except.ok (rows.map (fun r =>
      if r.githubId = t.githubId then applyTaskUpdate r t now else r))
  else if rows.any (fun r => r.projectItemId = t.id) then
    Except.error "duplicate key value violates unique constraint on project_item_id"
  else
    Except.ok (rows ++ [insertedTaskRow (freshTaskId rows) t now])

/-- `TaskRepository.upsertTask` (config/index.ts lines 33-63): a single
upsert statement. -/
def upsertTask (db : Db) (t : Task) (now : Nat) : Except String Db :=
  match upsertTaskRow db.tasks t now with
  | Except.ok rows => Except.ok { db with tasks := rows }
  | Except.error e => Except.error e

/-- Transaction body of `TaskRepository.upsertTasks`: the per-task
statements run one after another on the transaction-local state and the
first error aborts the rest. -/
def upsertTasksGo (rows : List TaskRow) (ts : List Task) (now : Nat) :
    Except String (List TaskRow) :=
  match ts with
  | [] => Except.ok rows
  | t :: rest =>
    match upsertTaskRow rows t now with
    | Except.ok rows2 => upsertTasksGo rows2 rest now
    | Except.error e => Except.error e

/-- `TaskRepository.upsertTasks` (config/index.ts lines 68-115): BEGIN,
per-task upserts, COMMIT on success; ROLLBACK and re-throw on any
failure, so an error leaves the table as it was. -/
def upsertTasks (db : Db) (ts : List Task) (now : Nat) : Except String Db :=
  match upsertTasksGo db.tasks ts now with
  | Except.ok rows => Except.ok { db with tasks := rows }
  | Except.error e => Except.error e

/-- Assignees of currently open assignments of a task (the SELECT in
`syncTaskAssignments`). -/
def openAssignees (asg : List AssignmentRow) (tid : Nat) : List String :=
  (asg.filter (fun a => a.taskId = tid ∧ a.unassignedAt = none)).map
    (fun a => a.assignee)

/-- Effect on one assignment row of the unassign UPDATE loop in
`syncTaskAssignments`: an open row of the task whose assignee is no
longer reported gets its unassigned_at stamped. -/
def closeIfRemoved (tid : Nat) (assignees : List String) (now : Nat)
    (a : AssignmentRow) : AssignmentRow :=
  if a.taskId = tid ∧ a.unassignedAt = none ∧ a.assignee ∉ assignees then
    { a with unassignedAt := some now }
  else a

/-- `TaskRepository.syncTaskAssignments` (config/index.ts lines
120-178): look up the task id (error when absent), read the open
assignments, close rows of assignees no longer reported, insert one
open row per newly reported assignee without an open assignment (the JS
Set deduplicates the reported list); all inside one transaction, so the
error path changes nothing. -/
def syncTaskAssignments (db : Db) (githubId : String)
    (assignees : List String) (now : Nat) : Except String Db :=
  match db.tasks.find? (fun r => r.githubId = githubId) with
  | none => Except.error ("Task not found: " ++ githubId)
  | some row =>
    Except.ok { db with assignments :=
      db.assignments.map (closeIfRemoved row.id assignees now) ++
      ((assignees.dedup.filter
        (fun a => a ∉ openAssignees db.assignments row.id)).map
        (fun a => ({ taskId := row.id, assignee := a, assignedAt := now,
                     unassignedAt := none } : AssignmentRow))) }

/-- SQL three-valued boolean `due_date < NOW() AND state = OPEN`
computed by `createSnapshot`: a NULL due_date makes the comparison
NULL; NULL AND false collapses to false, NULL AND true stays NULL. -/
def snapshotIsOverdue (now : Nat) (r : TaskRow) : Option Bool :=
  match r.dueDate with
  | some due => some (decide (due < now) && decide (r.state = TaskState.OPEN))
  | none => if r.state = TaskState.OPEN then none else some false

/-- `TaskRepository.createSnapshot` (config/index.ts lines 276-290):
insert into task_snapshots one row per tasks row, with the overdue flag
computed at timestamp granularity. `ON CONFLICT DO NOTHING` has no
arbiter to fire on because task_snapshots declares no unique constraint
besides its serial primary key (src/unnamed/part_004 lines 33-41), so
every row is inserted on every call. -/
def createSnapshot (db : Db) (now : Nat) : Db :=
  { db with snapshots := db.snapshots ++ db.tasks.map (fun r =>
      { snapshotDate := dayOf now, taskId := r.id, state := r.state,
        status := r.status, isOverdue := snapshotIsOverdue now r }) }

/-- `TaskRepository.saveDailyStatistics` (config/index.ts lines
295-315): upsert keyed on snapshot_date, overwriting the counts. -/
def saveDailyStatistics (db : Db) (now : Nat)
    (total openCount closedCount overdueCount : Nat) : Db :=
  if db.dailyStats.any (fun r => r.snapshotDate = dayOf now) then
    { db with dailyStats := db.dailyStats.map (fun r =>
        if r.snapshotDate = dayOf now then
          { r with
            totalTasks := total
            openTasks := openCount
            closedTasks := closedCount
            overdueTasks := overdueCount
            createdAt := now }
        else r) }
  else
    { db with dailyStats := db.dailyStats ++
        [{ snapshotDate := dayOf now, totalTasks := total,
           openTasks := openCount, closedTasks := closedCount,
           overdueTasks := overdueCount, createdAt := now }] }

/-- `getAllTasks` row mapping (config/index.ts lines 183-221): the
in-memory Task built from a stored row; assignees are not populated. -/
def taskOfRow (r : TaskRow) : Task :=
  { id := r.projectItemId, githubId := r.githubId, title := r.title,
    number := r.number, type := r.type, state := r.state,
    status := r.status, repository := r.repository, assignees := [],
    createdAt := r.createdAt, updatedAt := r.updatedAt,
    dueDate := r.dueDate, addedToProjectAt := r.addedToProjectAt }

/-- Result visible to the caller of `upsertTasks`: COMMIT exposes the
new table, ROLLBACK leaves the store as it was and the error is
re-thrown alongside. -/
def upsertTasksRun (db : Db) (ts : List Task) (now : Nat) : Db × Option String :=
  match upsertTasks db ts now with
  | Except.ok db2 => (db2, none)
  | Except.error e => (db, some e)

/-- A sample in-memory task, for concrete evaluations. -/
def sampleTask (gid pid : String) (st : TaskState) (due : Option Nat)
    (asg : List String) : Task :=
  { id := pid, githubId := gid, title := "t", number := 1,
    type := TaskType.ISSUE, state := st, status := none,
    repository := some "o/r", assignees := asg, createdAt := 0,
    updatedAt := 0, dueDate := due, addedToProjectAt := none }

/-- A sample stored task row, for concrete evaluations. -/
def sampleRow (i : Nat) (gid pid : String) (st : TaskState)
    (due : Option Nat) : TaskRow :=
  { id := i, githubId := gid, projectItemId := pid, title := "t",
    number := 1, type := TaskType.ISSUE, state := st, status := none,
    repository := some "o/r", createdAt := 0, updatedAt := 0,
    dueDate := due, addedToProjectAt := none, lastSyncedAt := 0 }

/-- Assignment-sync phase of a poll cycle (polling-service.ts lines
72-81): each fetched task is processed in order, and only tasks
reporting at least one assignee are synced — a task with an empty
assignee list is skipped. A thrown error aborts the remaining tasks of
the loop; the per-task transactions of earlier tasks stay committed. -/
def syncPhase (now : Nat) : Db → List Task → Db × Option String
  | db, [] => (db, none)
  | db, t :: rest =>
    if t.assignees.isEmpty then syncPhase now db rest
    else
      match syncTaskAssignments db t.githubId t.assignees now with
      | Except.ok db2 => syncPhase now db2 rest
      | Except.error e => (db, some e)

/-- Outcome recorded for the last poll run. -/
inductive RunStatus where
  | success
  | error
deriving DecidableEq

/-- Mutable fields of `PollingService` (polling-service.ts lines 12-15). -/
structure PollState where
  isRunning : Bool
  lastRunTime : Option Nat
  lastRunStatus : Option RunStatus
  lastRunError : Option String
deriving DecidableEq

/-- Scheduler state together with the store it writes to. -/
structure SystemState where
  sched : PollState
  db : Db
deriving DecidableEq

/-- The try-block of `PollingService.poll` (polling-service.ts lines
53-101): fetch, compute stats, upsert the batch, sync assignments per
task, snapshot, record daily statistics; the first failure aborts the
remaining steps and surfaces as the caught error together with the
store as the completed statements left it (the failed batch upsert was
rolled back). `fetched` is the outcome of the GitHub fetch. -/
def runPipeline (fetched : Except String (List Task)) (now : Nat)
    (db : Db) : Db × Option String :=
  match fetched with
  | Except.error e => (db, some e)
  | Except.ok tasks =>
    match upsertTasks db tasks now with
    | Except.error e => (db, some e)
    | Except.ok db1 =>
      match syncPhase now db1 tasks with
      | (dbp, some e) => (dbp, some e)
      | (db2, none) =>
        (saveDailyStatistics (createSnapshot db2 now) now
          (calculateStats now tasks).total (calculateStats now tasks).open'
          (calculateStats now tasks).closed (calculateStats now tasks).overdue,
         none)

/-- `PollingService.poll` (polling-service.ts lines 41-112): a trigger
while a run is in progress returns at once with no state change;
otherwise the run stamps its start time, executes the pipeline inside
try-catch, and the finally-block returns the scheduler to idle with the
outcome and error message recorded (the error cleared on success). -/
def poll (fetched : Except String (List Task)) (now : Nat)
    (s : SystemState) : SystemState :=
  if s.sched.isRunning then s
  else
    match runPipeline fetched now s.db with
    | (db2, none) =>
      { sched := { isRunning := false, lastRunTime := some now,
                   lastRunStatus := some RunStatus.success,
                   lastRunError := none },
        db := db2 }
    | (db2, some e) =>
      { sched := { isRunning := false, lastRunTime := some now,
                   lastRunStatus := some RunStatus.error,
                   lastRunError := some e },
        db := db2 }

/-- State of raw issue content (src/unnamed/part_003 lines 3-18). -/
inductive IssueState where
  | OPEN
  | CLOSED
deriving DecidableEq

/-- State of raw pull-request content (src/unnamed/part_003 lines 20-36). -/
inductive PRState where
  | OPEN
  | CLOSED
  | MERGED
deriving DecidableEq

/-- Raw issue content; assignee entries carry (login, display name). -/
structure GitHubIssue where
  title : String
  number : Nat
  state : IssueState
  assignees : List (String × Option String)
  createdAt : Nat
  updatedAt : Nat
  repoName : String
  repoNameWithOwner : String
deriving DecidableEq

/-- Raw pull-request content. -/
structure GitHubPullRequest where
  title : String
  number : Nat
  state : PRState
  assignees : List (String × Option String)
  createdAt : Nat
  updatedAt : Nat
  repoName : String
  repoNameWithOwner : String
deriving DecidableEq

/-- Raw draft content. -/
structure GitHubDraftIssue where
  title : String
  body : String
deriving DecidableEq

/-- The content union carried by a project item. -/
inductive GitHubContent where
  | issue : GitHubIssue → GitHubContent
  | pullRequest : GitHubPullRequest → GitHubContent
  | draftIssue : GitHubDraftIssue → GitHubContent
deriving DecidableEq

/-- A named custom field value (src/unnamed/part_003,
`ProjectV2ItemFieldValue`): a GraphQL typename plus the optional
payloads of the possible field kinds. -/
structure ProjectV2ItemFieldValue where
  typename : String
  fieldName : Option String
  text : Option String
  date : Option String
  name : Option String
  number : Option Int
deriving DecidableEq

/-- A raw project item (src/unnamed/part_003, `ProjectV2Item`). -/
structure ProjectV2Item where
  id : String
  fieldValues : List ProjectV2ItemFieldValue
  content : Option GitHubContent
deriving DecidableEq

/-- `getFieldValue` (github-fetcher.ts lines 17-39): first field whose
name matches case-insensitively, then the payload of its kind; the JS
falsy-coalescing `x || null` turns an empty string into null. -/
def getFieldValue (fieldValues : List ProjectV2ItemFieldValue)
    (fieldName : String) : Option String :=
  match fieldValues.find? (fun fv =>
    match fv.fieldName with
    | some n => n.toLower = fieldName.toLower
    | none => false) with
  | none => none
  | some field =>
    if field.typename = "ProjectV2ItemFieldTextValue" then
      match field.text with
      | some s => if s = "" then none else some s
      | none => none
    else if field.typename = "ProjectV2ItemFieldDateValue" then
      match field.date with
      | some s => if s = "" then none else some s
      | none => none
    else if field.typename = "ProjectV2ItemFieldSingleSelectValue" then
      match field.name with
      | some s => if s = "" then none else some s
      | none => none
    else if field.typename = "ProjectV2ItemFieldNumberValue" then
      match field.number with
      | some n => some (toString n)
      | none => none
    else none

/-- Ordered due-date candidate fields (github-fetcher.ts lines 74-77),
first non-null wins. -/
def resolveDueDate (fvs : List ProjectV2ItemFieldValue) : Option String :=
  ((getFieldValue fvs "Production ETA").or
    ((getFieldValue fvs "Due Date").or
      ((getFieldValue fvs "Due").or (getFieldValue fvs "DueDate"))))

/-- Issue states carried over unchanged by `content.state as any`. -/
def issueStateToTaskState (s : IssueState) : TaskState :=
  match s with
  | IssueState.OPEN => TaskState.OPEN
  | IssueState.CLOSED => TaskState.CLOSED

/-- Pull-request states carried over unchanged; the explicit MERGED
branch of the source assigns the same value the cast already carried. -/
def prStateToTaskState (s : PRState) : TaskState :=
  match s with
  | PRState.OPEN => TaskState.OPEN
  | PRState.CLOSED => TaskState.CLOSED
  | PRState.MERGED => TaskState.MERGED

/-- `transformItemToTask` (github-fetcher.ts lines 58-108). Items
without content and draft items yield none. `parseDate` stands for the
JS Date parser applied to the resolved due-date string. -/
def transformItemToTask (parseDate : String → Nat)
    (item : ProjectV2Item) : Option Task :=
  match item.content with
  | none => none
  | some (GitHubContent.draftIssue _) => none
  | some (GitHubContent.issue c) =>
    some { id := item.id
           githubId := c.repoNameWithOwner ++ "#" ++ toString c.number
           title := c.title
           number := c.number
           type := TaskType.ISSUE
           state := issueStateToTaskState c.state
           status := getFieldValue item.fieldValues "Status"
           repository := some c.repoNameWithOwner
           assignees := c.assignees.map (fun a => a.1)
           createdAt := c.createdAt
           updatedAt := c.updatedAt
           dueDate := (resolveDueDate item.fieldValues).map parseDate
           addedToProjectAt := some c.createdAt }
  | some (GitHubContent.pullRequest c) =>
    some { id := item.id
           githubId := c.repoNameWithOwner ++ "#" ++ toString c.number
           title := c.title
           number := c.number
           type := TaskType.PULL_REQUEST
           state := prStateToTaskState c.state
           status := getFieldValue item.fieldValues "Status"
           repository := some c.repoNameWithOwner
           assignees := c.assignees.map (fun a => a.1)
           createdAt := c.createdAt
           updatedAt := c.updatedAt
           dueDate := (resolveDueDate item.fieldValues).map parseDate
           addedToProjectAt := some c.createdAt }

/-- Number of days backfilled (backfill-history.ts line 40). -/
def backfillDays : Nat := 30

/-- The snapshot instant the backfill uses for the day `daysAgo` days
back: `new Date()` shifted back whole days, keeping the run's time of
day (backfill-history.ts lines 44-45). -/
def backfillInstant (now k : Nat) : Nat := now - k * minutesPerDay

/-- One day's synthetic daily_statistics row (backfill-history.ts lines
50-98): tasks existing at the instant, those closed/merged and last
updated by the instant, open as the difference, and overdue among the
existing ones with a due date strictly before the instant that were
open at it (state not terminal, or terminal but updated after it). -/
def backfillRow (tasks : List Task) (now k : Nat) : DailyStatRow :=
  { snapshotDate := dayOf (backfillInstant now k)
    totalTasks := (tasks.filter
      (fun t => t.createdAt ≤ backfillInstant now k)).length
    openTasks := (tasks.filter
        (fun t => t.createdAt ≤ backfillInstant now k)).length -
      (tasks.filter (fun t => t.createdAt ≤ backfillInstant now k ∧
        (t.state = TaskState.CLOSED ∨ t.state = TaskState.MERGED) ∧
        t.updatedAt ≤ backfillInstant now k)).length
    closedTasks := (tasks.filter
      (fun t => t.createdAt ≤ backfillInstant now k ∧
        (t.state = TaskState.CLOSED ∨ t.state = TaskState.MERGED) ∧
        t.updatedAt ≤ backfillInstant now k)).length
    overdueTasks := (tasks.filter
      (fun t => decide (t.createdAt ≤ backfillInstant now k) &&
        match t.dueDate with
        | none => false
        | some due =>
          (decide (¬ (t.state = TaskState.CLOSED ∨ t.state = TaskState.MERGED)) ||
            decide (backfillInstant now k < t.updatedAt)) &&
          decide (due < backfillInstant now k))).length
    createdAt := now }

/-- The rows written by `backfillHistory` (backfill-history.ts lines
43-103), oldest day first through today. -/
def backfillRows (tasks : List Task) (now : Nat) : List DailyStatRow :=
  (List.range (backfillDays + 1)).map
    (fun i => backfillRow tasks now (backfillDays - i))

/-- Stated from the claim's words, for comparison with `backfillRow`:
the number of tasks whose creation timestamp is on or before the END of
calendar day `d` (its last minute). -/
def claimTotalAtEndOfDay (tasks : List Task) (d : Nat) : Nat :=
  (tasks.filter
    (fun t => t.createdAt ≤ d * minutesPerDay + (minutesPerDay - 1))).length

/-- A sample in-memory task with explicit timestamps. -/
def sampleTaskAt (created updated : Nat) (st : TaskState)
    (due : Option Nat) : Task :=
  { id := "p1", githubId := "o/r#1", title := "t", number := 1,
    type := TaskType.ISSUE, state := st, status := none,
    repository := some "o/r", assignees := [], createdAt := created,
    updatedAt := updated, dueDate := due, addedToProjectAt := none }

/-- An idle scheduler with no prior run. -/
def idleSched : PollState :=
  { isRunning := false, lastRunTime := none, lastRunStatus := none,
    lastRunError := none }

/-- A store holding one task row with one open assignment for alice. -/
def dbAlice : Db :=
  { tasks := [sampleRow 1 "o/r#1" "p1" TaskState.OPEN none]
    assignments := [{ taskId := 1, assignee := "alice", assignedAt := 0,
                      unassignedAt := none }]
    snapshots := []
    dailyStats := [] }

/-- The store `dbAlice` after syncing the report that bob (and no
longer alice) is assigned, at time 100. -/
def dbAliceSynced : Db :=
  { tasks := [sampleRow 1 "o/r#1" "p1" TaskState.OPEN none]
    assignments := [{ taskId := 1, assignee := "alice", assignedAt := 0,
                      unassignedAt := some 100 },
                    { taskId := 1, assignee := "bob", assignedAt := 100,
                      unassignedAt := none }]
    snapshots := []
    dailyStats := [] }

/-- A sample merged pull request. -/
def samplePR : GitHubPullRequest :=
  { title := "pr", number := 2, state := PRState.MERGED, assignees := [],
    createdAt := 0, updatedAt := 0, repoName := "r",
    repoNameWithOwner := "o/r" }

/-- A project item wrapping `samplePR` with no custom fields. -/
def samplePRItem : ProjectV2Item :=
  { id := "item1", fieldValues := [],
    content := some (GitHubContent.pullRequest samplePR) }

/-- C1: the Stats Engine overdue predicate is true exactly when the task
has a due date, its state is OPEN, and the due date's calendar day is on
or before the current calendar day; in particular a task due today and
OPEN is overdue, a task due tomorrow is not, and a CLOSED or MERGED task
is never overdue. -/
theorem isOverdue_iff (now : Nat) (t : Task) :
    (isOverdue now t = true ↔
      ∃ due, t.dueDate = some due ∧ t.state = TaskState.OPEN ∧
        dayOf due ≤ dayOf now) ∧
    (∀ due, t.dueDate = some due → t.state = TaskState.OPEN →
      dayOf due = dayOf now → isOverdue now t = true) ∧
    (∀ due, t.dueDate = some due → dayOf due = dayOf now + 1 →
      isOverdue now t = false) ∧
    ((t.state = TaskState.CLOSED ∨ t.state = TaskState.MERGED) →
      isOverdue now t = false) := by
  have hday : ∀ a b : Nat, (dateOnly a ≤ dateOnly b ↔ dayOf a ≤ dayOf b) := by
    intro a b
    unfold dateOnly dayOf
    constructor
    · intro h
      exact Nat.le_of_mul_le_mul_right h (by norm_num [minutesPerDay])
    · intro h
      exact Nat.mul_le_mul_right _ h
  refine ⟨?_, ?_, ?_, ?_⟩
  · constructor
    · intro h
      unfold isOverdue at h
      match hdue : t.dueDate with
      | none => rw [hdue] at h; simp at h
      | some due =>
        rw [hdue] at h
        by_cases hst : t.state = TaskState.CLOSED ∨ t.state = TaskState.MERGED
        · simp [hst] at h
        · refine ⟨due, rfl, ?_, ?_⟩
          · cases hs : t.state with
            | OPEN => rfl
            | CLOSED => exact absurd (Or.inl hs) hst
            | MERGED => exact absurd (Or.inr hs) hst
          · simp [hst] at h
            exact (hday due now).mp h
    · rintro ⟨due, hdue, hst, hle⟩
      unfold isOverdue
      rw [hdue]
      have hnc : ¬ (t.state = TaskState.CLOSED ∨ t.state = TaskState.MERGED) := by
        rw [hst]; simp
      simp [hnc]
      exact (hday due now).mpr hle
  · intro due hdue hst heq
    unfold isOverdue
    rw [hdue]
    have hnc : ¬ (t.state = TaskState.CLOSED ∨ t.state = TaskState.MERGED) := by
      rw [hst]; simp
    simp [hnc]
    exact (hday due now).mpr (le_of_eq heq)
  · intro due hdue heq
    unfold isOverdue
    rw [hdue]
    by_cases hst : t.state = TaskState.CLOSED ∨ t.state = TaskState.MERGED
    · simp [hst]
    · simp [hst]
      have hne : ¬ dayOf due ≤ dayOf now := by omega
      exact lt_of_not_le (fun hc => hne ((hday due now).mp hc))
  · intro hst
    unfold isOverdue
    match hdue : t.dueDate with
    | none => simp
    | some due => simp [hst]

/-- Witness for C1 at a concrete input: a task due at 08:00 today
(now = day 10, 12:00) in state OPEN is overdue. -/
theorem isOverdue_iff_witness :
    isOverdue 15120
      { id := "i1", githubId := "o/r#1", title := "t", number := 1
        type := TaskType.ISSUE, state := TaskState.OPEN, status := none
        repository := some "o/r", assignees := [], createdAt := 0
        updatedAt := 0, dueDate := some 14880, addedToProjectAt := none }
      = true := by
  have h := isOverdue_iff 15120
    { id := "i1", githubId := "o/r#1", title := "t", number := 1
      type := TaskType.ISSUE, state := TaskState.OPEN, status := none
      repository := some "o/r", assignees := [], createdAt := 0
      updatedAt := 0, dueDate := some 14880, addedToProjectAt := none }
  exact h.2.1 14880 rfl rfl (by decide)

/-- C8: upserting a task whose github_id already has a stored row
rewrites in place only that row's title, state, status, updated
timestamp, due date and last-synced timestamp; the row's identity,
creation timestamp, type, number, repository and added-to-project
timestamp are kept, rows with other github_ids are untouched, no row is
added or removed, and the other tables are untouched. -/
theorem upsertTask_frame (db : Db) (t : Task) (now : Nat) (r : TaskRow)
    (hr : r ∈ db.tasks) (hg : r.githubId = t.githubId) :
    ∃ db2, upsertTask db t now = Except.ok db2 ∧
      (∀ r2 ∈ db.tasks, r2.githubId = t.githubId →
        ∃ r3 ∈ db2.tasks,
          r3.githubId = r2.githubId ∧ r3.projectItemId = r2.projectItemId ∧
          r3.createdAt = r2.createdAt ∧ r3.type = r2.type ∧
          r3.number = r2.number ∧ r3.repository = r2.repository ∧
          r3.addedToProjectAt = r2.addedToProjectAt ∧
          r3.title = t.title ∧ r3.state = t.state ∧ r3.status = t.status ∧
          r3.updatedAt = t.updatedAt ∧ r3.dueDate = t.dueDate ∧
          r3.lastSyncedAt = now) ∧
      (∀ r2 ∈ db.tasks, r2.githubId ≠ t.githubId → r2 ∈ db2.tasks) ∧
      db2.tasks.length = db.tasks.length ∧
      db2.assignments = db.assignments ∧
      db2.snapshots = db.snapshots ∧
      db2.dailyStats = db.dailyStats := by
  have hany : db.tasks.any (fun r2 => r2.githubId = t.githubId) = true := by
    rw [List.any_eq_true]
    exact ⟨r, hr, by simp [hg]⟩
  have hup : upsertTaskRow db.tasks t now = Except.ok (db.tasks.map
      (fun r2 => if r2.githubId = t.githubId then applyTaskUpdate r2 t now
                 else r2)) := by
    unfold upsertTaskRow
    rw [if_pos hany]
  refine ⟨{ db with tasks := (db.tasks.map
      (fun r2 => if r2.githubId = t.githubId then applyTaskUpdate r2 t now
                 else r2)) }, ?_, ?_, ?_, ?_, rfl, rfl, rfl⟩
  · unfold upsertTask
    rw [hup]
  · intro r2 hr2 hg2
    refine ⟨applyTaskUpdate r2 t now, ?_, by simp [applyTaskUpdate],
      by simp [applyTaskUpdate], by simp [applyTaskUpdate],
      by simp [applyTaskUpdate], by simp [applyTaskUpdate],
      by simp [applyTaskUpdate], by simp [applyTaskUpdate],
      by simp [applyTaskUpdate], by simp [applyTaskUpdate],
      by simp [applyTaskUpdate], by simp [applyTaskUpdate],
      by simp [applyTaskUpdate], by simp [applyTaskUpdate]⟩
    have hm := List.mem_map_of_mem
      (fun r2 => if r2.githubId = t.githubId then applyTaskUpdate r2 t now
                 else r2) hr2
    simpa [if_pos hg2] using hm
  · intro r2 hr2 hg2
    have hm := List.mem_map_of_mem
      (fun r2 => if r2.githubId = t.githubId then applyTaskUpdate r2 t now
                 else r2) hr2
    simpa [if_neg hg2] using hm
  · simp

/-- Witness for C8 at a concrete input: updating a stored row keeps its
identity and creation data while taking the new state. -/
theorem upsertTask_frame_witness :
    ∃ db2, upsertTask
        { tasks := [sampleRow 1 "o/r#1" "p1" TaskState.OPEN none],
          assignments := [], snapshots := [], dailyStats := [] }
        (sampleTask "o/r#1" "p1" TaskState.CLOSED none []) 7 =
        Except.ok db2 ∧
      db2.tasks.length = 1 ∧ db2.assignments = [] := by
  obtain ⟨db2, h1, _, _, hlen, hasg, _, _⟩ := upsertTask_frame
    { tasks := [sampleRow 1 "o/r#1" "p1" TaskState.OPEN none],
      assignments := [], snapshots := [], dailyStats := [] }
    (sampleTask "o/r#1" "p1" TaskState.CLOSED none []) 7
    (sampleRow 1 "o/r#1" "p1" TaskState.OPEN none)
    (by simp) (by rfl)
  exact ⟨db2, h1, by simpa using hlen, hasg⟩

/-- A successful single upsert keeps every github_id already present
and establishes the upserted task's github_id. -/
theorem upsertTaskRow_keeps (rows rows2 : List TaskRow) (t : Task)
    (now : Nat) (h : upsertTaskRow rows t now = Except.ok rows2) :
    (∀ g, rows.any (fun r => r.githubId = g) = true →
      rows2.any (fun r => r.githubId = g) = true) ∧
    rows2.any (fun r => r.githubId = t.githubId) = true := by
  unfold upsertTaskRow at h
  by_cases h1 : rows.any (fun r => r.githubId = t.githubId) = true
  · rw [if_pos h1] at h
    injection h with h2
    subst h2
    constructor
    · intro g hg
      rw [List.any_eq_true] at hg ⊢
      obtain ⟨r, hr, hrg⟩ := hg
      refine ⟨if r.githubId = t.githubId then applyTaskUpdate r t now
              else r, List.mem_map_of_mem _ hr, ?_⟩
      by_cases hc : r.githubId = t.githubId
      · rw [if_pos hc]
        simp only [decide_eq_true_eq] at hrg ⊢
        rw [← hrg]
        simp [applyTaskUpdate, hc]
      · rw [if_neg hc]
        exact hrg
    · rw [List.any_eq_true] at h1 ⊢
      obtain ⟨r, hr, hrg⟩ := h1
      simp only [decide_eq_true_eq] at hrg
      refine ⟨applyTaskUpdate r t now, ?_, by simp [applyTaskUpdate, hrg]⟩
      have hm := List.mem_map_of_mem
        (fun r2 => if r2.githubId = t.githubId then applyTaskUpdate r2 t now
                   else r2) hr
      simpa [if_pos hrg] using hm
  · rw [if_neg h1] at h
    by_cases h2 : rows.any (fun r => r.projectItemId = t.id) = true
    · rw [if_pos h2] at h
      exact Except.noConfusion h
    · rw [if_neg h2] at h
      injection h with h3
      subst h3
      constructor
      · intro g hg
        rw [List.any_eq_true] at hg ⊢
        obtain ⟨r, hr, hrg⟩ := hg
        exact ⟨r, List.mem_append_left _ hr, hrg⟩
      · rw [List.any_eq_true]
        refine ⟨insertedTaskRow (freshTaskId rows) t now, ?_, by
          simp [insertedTaskRow]⟩
        exact List.mem_append_right _ (List.mem_singleton.mpr rfl)

/-- A successful transaction body persists every task of the batch. -/
theorem upsertTasksGo_ok (now : Nat) : ∀ (ts : List Task)
    (rows res : List TaskRow), upsertTasksGo rows ts now = Except.ok res →
    (∀ g, rows.any (fun r => r.githubId = g) = true →
      res.any (fun r => r.githubId = g) = true) ∧
    ∀ t ∈ ts, res.any (fun r => r.githubId = t.githubId) = true := by
  intro ts
  induction ts with
  | nil =>
    intro rows res h
    unfold upsertTasksGo at h
    injection h with h2
    subst h2
    exact ⟨fun g hg => hg, by simp⟩
  | cons t rest ih =>
    intro rows res h
    unfold upsertTasksGo at h
    cases hu : upsertTaskRow rows t now with
    | error e =>
      rw [hu] at h
      exact Except.noConfusion h
    | ok rows2 =>
      rw [hu] at h
      obtain ⟨hpres, hself⟩ := upsertTaskRow_keeps rows rows2 t now hu
      obtain ⟨hpres2, hall⟩ := ih rows2 res h
      refine ⟨fun g hg => hpres2 g (hpres g hg), ?_⟩
      intro t2 ht2
      rcases List.mem_cons.mp ht2 with h3 | h3
      · subst h3
        exact hpres2 _ hself
      · exact hall t2 h3

/-- A failing transaction body fails because some individual task's
upsert statement failed with that error. -/
theorem upsertTasksGo_error (now : Nat) : ∀ (ts : List Task)
    (rows : List TaskRow) (e : String),
    upsertTasksGo rows ts now = Except.error e →
    ∃ t ∈ ts, ∃ rows0, upsertTaskRow rows0 t now = Except.error e := by
  intro ts
  induction ts with
  | nil =>
    intro rows e h
    unfold upsertTasksGo at h
    exact Except.noConfusion h
  | cons t rest ih =>
    intro rows e h
    unfold upsertTasksGo at h
    cases hu : upsertTaskRow rows t now with
    | error e2 =>
      rw [hu] at h
      injection h with h2
      subst h2
      exact ⟨t, List.mem_cons_self t rest, rows, hu⟩
    | ok rows2 =>
      rw [hu] at h
      obtain ⟨t2, ht2, rows0, h0⟩ := ih rows2 e h
      exact ⟨t2, List.mem_cons_of_mem t ht2, rows0, h0⟩

/-- C7: the batch upsert is all-or-nothing. If any individual upsert
fails, the visible store is exactly the one before the call and the
error is re-thrown; if none fails, every task of the list is persisted
under its github_id and no other table is touched. -/
theorem upsertTasks_atomic (db : Db) (ts : List Task) (now : Nat) :
    (∀ e, upsertTasks db ts now = Except.error e →
      upsertTasksRun db ts now = (db, some e) ∧
      ∃ t ∈ ts, ∃ rows0, upsertTaskRow rows0 t now = Except.error e) ∧
    (∀ db2, upsertTasks db ts now = Except.ok db2 →
      upsertTasksRun db ts now = (db2, none) ∧
      (∀ t ∈ ts, db2.tasks.any (fun r => r.githubId = t.githubId) = true) ∧
      db2.assignments = db.assignments ∧
      db2.snapshots = db.snapshots ∧
      db2.dailyStats = db.dailyStats) := by
  constructor
  · intro e h
    refine ⟨?_, ?_⟩
    · unfold upsertTasksRun
      rw [h]
    · unfold upsertTasks at h
      cases hg : upsertTasksGo db.tasks ts now with
      | error e2 =>
        rw [hg] at h
        injection h with h2
        subst h2
        exact upsertTasksGo_error now ts db.tasks _ hg
      | ok rows =>
        rw [hg] at h
        exact Except.noConfusion h
  · intro db2 h
    refine ⟨?_, ?_, ?_, ?_, ?_⟩
    · unfold upsertTasksRun
      rw [h]
    · unfold upsertTasks at h
      cases hg : upsertTasksGo db.tasks ts now with
      | error e2 =>
        rw [hg] at h
        exact Except.noConfusion h
      | ok rows =>
        rw [hg] at h
        injection h with h2
        subst h2
        exact (upsertTasksGo_ok now ts db.tasks rows hg).2
    all_goals
      unfold upsertTasks at h
      cases hg : upsertTasksGo db.tasks ts now with
      | error e2 =>
        rw [hg] at h
        exact Except.noConfusion h
      | ok rows =>
        rw [hg] at h
        injection h with h2
        subst h2
        rfl

/-- Witness for C7 at concrete inputs: a batch whose second task reuses
a stored project_item_id under a fresh github_id fails and leaves the
store untouched, while a batch into an empty store persists its task. -/
theorem upsertTasks_atomic_witness :
    (upsertTasksRun
        { tasks := [sampleRow 1 "o/r#1" "p1" TaskState.OPEN none],
          assignments := [], snapshots := [], dailyStats := [] }
        [sampleTask "o/r#2" "p1" TaskState.OPEN none []] 5 =
      ({ tasks := [sampleRow 1 "o/r#1" "p1" TaskState.OPEN none],
         assignments := [], snapshots := [], dailyStats := [] },
       some "duplicate key value violates unique constraint on project_item_id")) ∧
    ∃ db2, upsertTasks
        { tasks := [], assignments := [], snapshots := [], dailyStats := [] }
        [sampleTask "o/r#9" "p9" TaskState.OPEN none []] 5 =
        Except.ok db2 ∧
      db2.tasks.any (fun r => r.githubId = "o/r#9") = true := by
  constructor
  · exact ((upsertTasks_atomic
      { tasks := [sampleRow 1 "o/r#1" "p1" TaskState.OPEN none],
        assignments := [], snapshots := [], dailyStats := [] }
      [sampleTask "o/r#2" "p1" TaskState.OPEN none []] 5).1
      "duplicate key value violates unique constraint on project_item_id"
      (by rfl)).1
  · have h : upsertTasks
        { tasks := [], assignments := [], snapshots := [], dailyStats := [] }
        [sampleTask "o/r#9" "p9" TaskState.OPEN none []] 5 =
        Except.ok
          { tasks := [insertedTaskRow 1 (sampleTask "o/r#9" "p9" TaskState.OPEN none []) 5]
            assignments := []
            snapshots := []
            dailyStats := [] } := by rfl
    refine ⟨_, h, ?_⟩
    exact (((upsertTasks_atomic
      { tasks := [], assignments := [], snapshots := [], dailyStats := [] }
      [sampleTask "o/r#9" "p9" TaskState.OPEN none []] 5).2 _ h).2.1
      (sampleTask "o/r#9" "p9" TaskState.OPEN none [])
      (List.mem_singleton.mpr rfl))

/-- C2 (failing run): the task_snapshots table has no unique constraint
on (task_id, snapshot_date), so the ON CONFLICT DO NOTHING clause of
createSnapshot never fires and a second call on the same calendar day
inserts a second row per task: after two same-day calls the store holds
two rows for the one task and that date, not one. -/
theorem createSnapshot_duplicates :
    (((createSnapshot (createSnapshot
        { tasks := [sampleRow 1 "o/r#1" "p1" TaskState.OPEN none],
          assignments := [], snapshots := [], dailyStats := [] }
        3000) 3100).snapshots.filter
      (fun s => s.taskId = 1 ∧ s.snapshotDate = dayOf 3000)).length) = 2 := by
  decide

/-- C10: createSnapshot computes the stored overdue flag by a full
timestamp comparison (due_date < NOW() AND state = OPEN), so an OPEN
task due later today is snapshotted with is_overdue = false while the
Stats Engine's day-granularity predicate counts it overdue: the two
computations disagree. -/
theorem snapshot_vs_stats_overdue (now due : Nat) (r : TaskRow)
    (hst : r.state = TaskState.OPEN) (hdue : r.dueDate = some due)
    (hday : dayOf due = dayOf now) (hfut : now < due) :
    snapshotIsOverdue now r = some false ∧
    isOverdue now (taskOfRow r) = true := by
  constructor
  · unfold snapshotIsOverdue
    rw [hdue]
    simp [Nat.not_lt.mpr (le_of_lt hfut)]
  · unfold isOverdue taskOfRow
    simp only [hdue]
    have hnc : ¬ ((taskOfRow r).state = TaskState.CLOSED ∨
        (taskOfRow r).state = TaskState.MERGED) := by
      unfold taskOfRow
      rw [hst]
      simp
    unfold taskOfRow at hnc
    simp only [hst]
    simp
    unfold dateOnly
    unfold dayOf at hday
    rw [hday]

/-- Witness for C10 at a concrete input: now is day 10 at 12:00, the
task is OPEN with due date day 10 at 14:00. -/
theorem snapshot_vs_stats_overdue_witness :
    snapshotIsOverdue 15120
      (sampleRow 1 "o/r#1" "p1" TaskState.OPEN (some 15240)) = some false ∧
    isOverdue 15120
      (taskOfRow (sampleRow 1 "o/r#1" "p1" TaskState.OPEN (some 15240)))
      = true :=
  snapshot_vs_stats_overdue 15120 15240
    (sampleRow 1 "o/r#1" "p1" TaskState.OPEN (some 15240))
    rfl rfl (by decide) (by decide)

/-- C5: a poll trigger while a cycle is running (isRunning = true)
returns immediately with no pipeline step executed and no state change:
the store, lastRunTime, lastRunStatus and lastRunError are all exactly
as before the skipped trigger. -/
theorem poll_skip_while_running (fetched : Except String (List Task))
    (now : Nat) (s : SystemState) (h : s.sched.isRunning = true) :
    poll fetched now s = s := by
  unfold poll
  rw [if_pos h]

/-- Witness for C5 at a concrete input: a trigger against a running
scheduler with a recorded prior run changes nothing. -/
theorem poll_skip_while_running_witness :
    poll (Except.ok []) 42
      { sched := { isRunning := true, lastRunTime := some 7,
                   lastRunStatus := some RunStatus.success,
                   lastRunError := none },
        db := { tasks := [], assignments := [], snapshots := [],
                dailyStats := [] } } =
      { sched := { isRunning := true, lastRunTime := some 7,
                   lastRunStatus := some RunStatus.success,
                   lastRunError := none },
        db := { tasks := [], assignments := [], snapshots := [],
                dailyStats := [] } } :=
  poll_skip_while_running (Except.ok []) 42
    { sched := { isRunning := true, lastRunTime := some 7,
                 lastRunStatus := some RunStatus.success,
                 lastRunError := none },
      db := { tasks := [], assignments := [], snapshots := [],
              dailyStats := [] } } rfl

/-- C6: an idle-started poll cycle always terminates in the idle state
with the run timestamp recorded; the pipeline outcome is reflected as
lastRunStatus = success with the error cleared, or lastRunStatus =
error carrying the failing step's message; the store is exactly what
the pipeline left, and a fetch failure (the first step) leaves the
store untouched, the remaining steps aborted. -/
theorem poll_completes (fetched : Except String (List Task)) (now : Nat)
    (s : SystemState) (h : s.sched.isRunning = false) :
    (poll fetched now s).sched.isRunning = false ∧
    (poll fetched now s).sched.lastRunTime = some now ∧
    ((runPipeline fetched now s.db).2 = none →
      (poll fetched now s).sched.lastRunStatus = some RunStatus.success ∧
      (poll fetched now s).sched.lastRunError = none) ∧
    (∀ e, (runPipeline fetched now s.db).2 = some e →
      (poll fetched now s).sched.lastRunStatus = some RunStatus.error ∧
      (poll fetched now s).sched.lastRunError = some e) ∧
    (poll fetched now s).db = (runPipeline fetched now s.db).1 ∧
    (∀ e, fetched = Except.error e →
      runPipeline fetched now s.db = (s.db, some e)) := by
  have hnr : ¬ (s.sched.isRunning = true) := by simp [h]
  refine ⟨?_, ?_, ?_, ?_, ?_, ?_⟩
  · unfold poll
    rw [if_neg hnr]
    rcases hp : runPipeline fetched now s.db with ⟨db2, err⟩
    cases err <;> rfl
  · unfold poll
    rw [if_neg hnr]
    rcases hp : runPipeline fetched now s.db with ⟨db2, err⟩
    cases err <;> rfl
  · unfold poll
    rw [if_neg hnr]
    rcases hp : runPipeline fetched now s.db with ⟨db2, err⟩
    cases err with
    | none => exact fun _ => ⟨rfl, rfl⟩
    | some e2 => exact fun hc => Option.noConfusion hc
  · unfold poll
    rw [if_neg hnr]
    rcases hp : runPipeline fetched now s.db with ⟨db2, err⟩
    cases err with
    | none => exact fun e hc => Option.noConfusion hc
    | some e2 =>
      intro e hc
      injection hc with h3
      subst h3
      exact ⟨rfl, rfl⟩
  · unfold poll
    rw [if_neg hnr]
    rcases hp : runPipeline fetched now s.db with ⟨db2, err⟩
    cases err <;> rfl
  · intro e he
    rw [he]
    rfl

/-- Witness for C6 at a concrete input: a successful empty cycle from
idle ends idle with success recorded and the error cleared. -/
theorem poll_completes_witness :
    (poll (Except.ok []) 100
      { sched := idleSched, db := dbAlice }).sched.isRunning = false ∧
    (poll (Except.ok []) 100
      { sched := idleSched, db := dbAlice }).sched.lastRunStatus =
      some RunStatus.success ∧
    (poll (Except.ok []) 100
      { sched := idleSched, db := dbAlice }).sched.lastRunError = none := by
  have h := poll_completes (Except.ok []) 100
    { sched := idleSched, db := dbAlice } rfl
  have h3 := h.2.2.1 (by rfl)
  exact ⟨h.1, h3.1, h3.2⟩

/-- C9: for every raw item the normalizer accepts, merged pull_request
content yields task state MERGED, all other content states map directly
(open to OPEN, closed to CLOSED, for both content kinds), and every
produced task in state MERGED has type PULL_REQUEST — issue content
never yields MERGED. -/
theorem transformItemToTask_state_mapping (parseDate : String → Nat)
    (item : ProjectV2Item) (task : Task)
    (h : transformItemToTask parseDate item = some task) :
    (∀ c, item.content = some (GitHubContent.pullRequest c) →
      (c.state = PRState.MERGED → task.state = TaskState.MERGED) ∧
      (c.state = PRState.OPEN → task.state = TaskState.OPEN) ∧
      (c.state = PRState.CLOSED → task.state = TaskState.CLOSED)) ∧
    (∀ c, item.content = some (GitHubContent.issue c) →
      (c.state = IssueState.OPEN → task.state = TaskState.OPEN) ∧
      (c.state = IssueState.CLOSED → task.state = TaskState.CLOSED)) ∧
    (task.state = TaskState.MERGED → task.type = TaskType.PULL_REQUEST) := by
  unfold transformItemToTask at h
  cases hcontent : item.content with
  | none =>
    rw [hcontent] at h
    exact Option.noConfusion h
  | some c0 =>
    rw [hcontent] at h
    cases c0 with
    | draftIssue d =>
      exact Option.noConfusion h
    | issue c =>
      injection h with h2
      subst h2
      refine ⟨?_, ?_, ?_⟩
      · intro c2 hc2
        injection hc2 with h3
        exact GitHubContent.noConfusion h3
      · intro c2 hc2
        injection hc2 with h3
        injection h3 with h4
        subst h4
        exact ⟨fun hs => by simp [issueStateToTaskState, hs],
               fun hs => by simp [issueStateToTaskState, hs]⟩
      · intro hm
        cases hcs : c.state <;> simp [issueStateToTaskState, hcs] at hm
    | pullRequest c =>
      injection h with h2
      subst h2
      refine ⟨?_, ?_, fun _ => rfl⟩
      · intro c2 hc2
        injection hc2 with h3
        injection h3 with h4
        subst h4
        exact ⟨fun hs => by simp [prStateToTaskState, hs],
               fun hs => by simp [prStateToTaskState, hs],
               fun hs => by simp [prStateToTaskState, hs]⟩
      · intro c2 hc2
        injection hc2 with h3
        exact GitHubContent.noConfusion h3

/-- Witness for C9 at a concrete input: a merged pull-request item
normalizes to a MERGED task of type PULL_REQUEST. -/
theorem transformItemToTask_state_mapping_witness :
    ∃ task, transformItemToTask (fun _ => 0) samplePRItem = some task ∧
      task.state = TaskState.MERGED ∧ task.type = TaskType.PULL_REQUEST := by
  refine ⟨_, rfl, ?_, ?_⟩
  · exact ((transformItemToTask_state_mapping (fun _ => 0) samplePRItem _
      rfl).1 samplePR rfl).1 rfl
  · apply (transformItemToTask_state_mapping (fun _ => 0) samplePRItem _
      rfl).2.2
    exact ((transformItemToTask_state_mapping (fun _ => 0) samplePRItem _
      rfl).1 samplePR rfl).1 rfl

/-- A successful sync never touches the tasks table. -/
theorem sync_tasks_const (db db2 : Db) (gid : String) (as : List String)
    (now : Nat) (h : syncTaskAssignments db gid as now = Except.ok db2) :
    db2.tasks = db.tasks := by
  unfold syncTaskAssignments at h
  cases hf : db.tasks.find? (fun r => r.githubId = gid) with
  | none =>
    rw [hf] at h
    exact Except.noConfusion h
  | some row =>
    rw [hf] at h
    injection h with h2
    subst h2
    rfl

/-- Effect of one successful `syncTaskAssignments` call on the synced
task's own assignment rows: non-reported open rows get stamped,
reported open rows survive untouched, every reported assignee ends up
with an open row, and every open row left belongs to a reported
assignee. -/
theorem sync_self (db db2 : Db) (gid : String) (as : List String)
    (now : Nat) (row : TaskRow)
    (hfind : db.tasks.find? (fun r => r.githubId = gid) = some row)
    (h : syncTaskAssignments db gid as now = Except.ok db2) :
    db2.tasks = db.tasks ∧
    (∀ a ∈ db.assignments, a.taskId = row.id → a.unassignedAt = none →
      a.assignee ∉ as →
      ({ a with unassignedAt := some now } : AssignmentRow) ∈ db2.assignments) ∧
    (∀ a ∈ db.assignments, a.taskId = row.id → a.unassignedAt = none →
      a.assignee ∈ as → a ∈ db2.assignments) ∧
    (∀ s ∈ as, ∃ a, a ∈ db2.assignments ∧ a.taskId = row.id ∧
      a.assignee = s ∧ a.unassignedAt = none) ∧
    (∀ a ∈ db2.assignments, a.taskId = row.id → a.unassignedAt = none →
      a.assignee ∈ as) := by
  unfold syncTaskAssignments at h
  rw [hfind] at h
  injection h with h2
  subst h2
  refine ⟨rfl, ?_, ?_, ?_, ?_⟩
  · intro a ha h1 h2 h3
    refine List.mem_append.mpr (Or.inl ?_)
    have hm := List.mem_map_of_mem (closeIfRemoved row.id as now) ha
    have heq : closeIfRemoved row.id as now a =
        { a with unassignedAt := some now } := by
      unfold closeIfRemoved
      rw [if_pos ⟨h1, h2, h3⟩]
    rwa [heq] at hm
  · intro a ha h1 h2 h3
    refine List.mem_append.mpr (Or.inl ?_)
    have hm := List.mem_map_of_mem (closeIfRemoved row.id as now) ha
    have heq : closeIfRemoved row.id as now a = a := by
      unfold closeIfRemoved
      rw [if_neg]
      intro hc
      exact hc.2.2 h3
    rwa [heq] at hm
  · intro s hs
    by_cases hcur : s ∈ openAssignees db.assignments row.id
    · unfold openAssignees at hcur
      rw [List.mem_map] at hcur
      obtain ⟨a, haf, hae⟩ := hcur
      rw [List.mem_filter] at haf
      obtain ⟨ha, hcond⟩ := haf
      have hcond2 : a.taskId = row.id ∧ a.unassignedAt = none := by
        simpa using hcond
      refine ⟨a, ?_, hcond2.1, hae, hcond2.2⟩
      refine List.mem_append.mpr (Or.inl ?_)
      have hm := List.mem_map_of_mem (closeIfRemoved row.id as now) ha
      have heq : closeIfRemoved row.id as now a = a := by
        unfold closeIfRemoved
        rw [if_neg]
        intro hc
        apply hc.2.2
        rw [hae]
        exact hs
      rwa [heq] at hm
    · refine ⟨{ taskId := row.id, assignee := s, assignedAt := now,
                unassignedAt := none }, ?_, rfl, rfl, rfl⟩
      refine List.mem_append.mpr (Or.inr ?_)
      apply List.mem_map_of_mem
      rw [List.mem_filter]
      refine ⟨List.mem_dedup.mpr hs, ?_⟩
      simpa using hcur
  · intro a ha h1 h2
    rcases List.mem_append.mp ha with hL | hR
    · rw [List.mem_map] at hL
      obtain ⟨b, hb, hbe⟩ := hL
      by_cases hc : b.taskId = row.id ∧ b.unassignedAt = none ∧
          b.assignee ∉ as
      · have heq : closeIfRemoved row.id as now b =
            { b with unassignedAt := some now } := by
          unfold closeIfRemoved
          rw [if_pos hc]
        rw [heq] at hbe
        rw [← hbe] at h2
        simp at h2
      · have heq : closeIfRemoved row.id as now b = b := by
          unfold closeIfRemoved
          rw [if_neg hc]
        rw [heq] at hbe
        subst hbe
        by_contra hnot
        exact hc ⟨h1, h2, hnot⟩
    · rw [List.mem_map] at hR
      obtain ⟨s, hsf, hse⟩ := hR
      rw [List.mem_filter] at hsf
      rw [← hse]
      exact List.mem_dedup.mp hsf.1

/-- Stamping rows of one task leaves the filtered slice of any other
task id unchanged. -/
theorem filter_map_closeIfRemoved (l : List AssignmentRow) (rid tid : Nat)
    (as : List String) (now : Nat) (hne : rid ≠ tid) :
    (l.map (closeIfRemoved rid as now)).filter (fun a => a.taskId = tid) =
      l.filter (fun a => a.taskId = tid) := by
  induction l with
  | nil => rfl
  | cons b l ih =>
    rw [List.map_cons, List.filter_cons, List.filter_cons]
    by_cases hc : b.taskId = rid ∧ b.unassignedAt = none ∧ b.assignee ∉ as
    · have heq : closeIfRemoved rid as now b =
          { b with unassignedAt := some now } := by
        unfold closeIfRemoved
        rw [if_pos hc]
      have hbt : ¬ (b.taskId = tid) := by
        rw [hc.1]
        exact hne
      rw [heq]
      simp [hbt, ih]
    · have heq : closeIfRemoved rid as now b = b := by
        unfold closeIfRemoved
        rw [if_neg hc]
      rw [heq, ih]

/-- A successful sync of one task leaves the assignment slice of any
other task id unchanged. -/
theorem sync_other (db db2 : Db) (gid : String) (as : List String)
    (now tid : Nat)
    (h : syncTaskAssignments db gid as now = Except.ok db2)
    (hne : ∀ row, db.tasks.find? (fun r => r.githubId = gid) = some row →
      row.id ≠ tid) :
    db2.assignments.filter (fun a => a.taskId = tid) =
      db.assignments.filter (fun a => a.taskId = tid) := by
  unfold syncTaskAssignments at h
  cases hf : db.tasks.find? (fun r => r.githubId = gid) with
  | none =>
    rw [hf] at h
    exact Except.noConfusion h
  | some row =>
    rw [hf] at h
    injection h with h2
    subst h2
    have hid : row.id ≠ tid := hne row hf
    show ((db.assignments.map (closeIfRemoved row.id as now) ++ _).filter _) = _
    rw [List.filter_append,
      filter_map_closeIfRemoved db.assignments row.id tid as now hid]
    have hadded : (((as.dedup.filter
        (fun a => a ∉ openAssignees db.assignments row.id)).map
        (fun a => ({ taskId := row.id, assignee := a, assignedAt := now,
                     unassignedAt := none } : AssignmentRow))).filter
        (fun a => a.taskId = tid)) = [] := by
      rw [List.filter_eq_nil_iff]
      intro a ha
      rw [List.mem_map] at ha
      obtain ⟨s, hsf, hse⟩ := ha
      rw [← hse]
      simp [hid]
    rw [hadded, List.append_nil]

/-- A successful sync phase leaves the tasks table and the assignment
slice of any task not looked up by the phase unchanged. -/
theorem syncPhase_slice (now tid : Nat) : ∀ (ts : List Task) (db db2 : Db),
    syncPhase now db ts = (db2, none) →
    (∀ t ∈ ts, ∀ row,
      db.tasks.find? (fun r => r.githubId = t.githubId) = some row →
      row.id ≠ tid) →
    db2.tasks = db.tasks ∧
    db2.assignments.filter (fun a => a.taskId = tid) =
      db.assignments.filter (fun a => a.taskId = tid) := by
  intro ts
  induction ts with
  | nil =>
    intro db db2 h _
    simp only [syncPhase] at h
    injection h with h1 h2
    subst h1
    exact ⟨rfl, rfl⟩
  | cons t rest ih =>
    intro db db2 h hne
    simp only [syncPhase] at h
    by_cases he : t.assignees.isEmpty = true
    · rw [if_pos he] at h
      exact ih db db2 h (fun t2 ht2 => hne t2 (List.mem_cons_of_mem t ht2))
    · rw [if_neg he] at h
      cases hs : syncTaskAssignments db t.githubId t.assignees now with
      | error e =>
        rw [hs] at h
        injection h with h1 h2
        exact Option.noConfusion h2
      | ok db1 =>
        rw [hs] at h
        have htasks : db1.tasks = db.tasks := sync_tasks_const db db1 _ _ _ hs
        have hstep := sync_other db db1 t.githubId t.assignees now tid hs
          (fun row hrow => hne t (List.mem_cons_self t rest) row hrow)
        have hrest := ih db1 db2 h (fun t2 ht2 row hrow =>
          hne t2 (List.mem_cons_of_mem t ht2) row (by rwa [htasks] at hrow))
        exact ⟨hrest.1.trans htasks, hrest.2.trans hstep⟩

/-- In a well-formed tasks table, rows with different github_ids have
different serial ids. -/
theorem wf_ids (rows : List TaskRow)
    (hwf : rows.Pairwise
      (fun r1 r2 => r1.id ≠ r2.id ∧ r1.githubId ≠ r2.githubId))
    (r1 r2 : TaskRow) (h1 : r1 ∈ rows) (h2 : r2 ∈ rows)
    (hg : r1.githubId ≠ r2.githubId) : r1.id ≠ r2.id := by
  have hsym : Symmetric
      (fun r1 r2 : TaskRow => r1.id ≠ r2.id ∧ r1.githubId ≠ r2.githubId) :=
    fun _ _ hxy => ⟨hxy.1.symm, hxy.2.symm⟩
  have hne : r1 ≠ r2 := fun hcon => hg (by rw [hcon])
  exact (List.Pairwise.forall hsym hwf h1 h2 hne).1

/-- C3 (amended): after a successful assignment-sync phase of a poll
cycle, for every task fetched in that cycle THAT REPORTS AT LEAST ONE
ASSIGNEE (tasks with an empty reported assignee set are skipped by the
cycle's loop), with the stored rows keyed by distinct ids and
github_ids and the fetched tasks carrying distinct github_ids: every
previously open assignment of that task whose assignee is not in the
newly reported set has been closed with the unassigned timestamp
stamped, every previously open assignment of a still-reported assignee
is untouched, every reported assignee has an open assignment, and every
open assignment of the task belongs to a reported assignee. -/
theorem syncPhase_reconciles (now : Nat) : ∀ (ts : List Task) (db db2 : Db),
    db.tasks.Pairwise
      (fun r1 r2 => r1.id ≠ r2.id ∧ r1.githubId ≠ r2.githubId) →
    ts.Pairwise (fun t1 t2 => t1.githubId ≠ t2.githubId) →
    syncPhase now db ts = (db2, none) →
    ∀ t ∈ ts, t.assignees ≠ [] →
      ∃ row, db.tasks.find? (fun r => r.githubId = t.githubId) = some row ∧
        (∀ a ∈ db.assignments, a.taskId = row.id → a.unassignedAt = none →
          a.assignee ∉ t.assignees →
          ({ a with unassignedAt := some now } : AssignmentRow) ∈
            db2.assignments) ∧
        (∀ a ∈ db.assignments, a.taskId = row.id → a.unassignedAt = none →
          a.assignee ∈ t.assignees → a ∈ db2.assignments) ∧
        (∀ s ∈ t.assignees, ∃ a, a ∈ db2.assignments ∧ a.taskId = row.id ∧
          a.assignee = s ∧ a.unassignedAt = none) ∧
        (∀ a ∈ db2.assignments, a.taskId = row.id → a.unassignedAt = none →
          a.assignee ∈ t.assignees) := by
  intro ts
  induction ts with
  | nil =>
    intro db db2 _ _ _ t ht
    exact absurd ht (List.not_mem_nil t)
  | cons t0 rest ih =>
    intro db db2 hwf hkeys hrun t ht hne
    simp only [syncPhase] at hrun
    rcases List.mem_cons.mp ht with heq0 | htr
    · subst heq0
      have hemp : ¬ (t.assignees.isEmpty = true) := by
        cases hl : t.assignees with
        | nil => exact absurd hl hne
        | cons x xs => simp [hl]
      rw [if_neg hemp] at hrun
      cases hs : syncTaskAssignments db t.githubId t.assignees now with
      | error e =>
        rw [hs] at hrun
        injection hrun with h1 h2
        exact Option.noConfusion h2
      | ok db1 =>
        rw [hs] at hrun
        have hfind : ∃ row,
            db.tasks.find? (fun r => r.githubId = t.githubId) = some row := by
          have hs2 := hs
          unfold syncTaskAssignments at hs2
          cases hf : db.tasks.find? (fun r => r.githubId = t.githubId) with
          | none =>
            rw [hf] at hs2
            exact Except.noConfusion hs2
          | some row => exact ⟨row, rfl⟩
        obtain ⟨row, hrow⟩ := hfind
        obtain ⟨htasks1, hclose, hkeep, hopen, honly⟩ :=
          sync_self db db1 t.githubId t.assignees now row hrow hs
        have hslice : db2.assignments.filter (fun a => a.taskId = row.id) =
            db1.assignments.filter (fun a => a.taskId = row.id) := by
          refine (syncPhase_slice now row.id rest db1 db2 hrun ?_).2
          intro t2 ht2 row2 hrow2
          rw [htasks1] at hrow2
          have hgid : t.githubId ≠ t2.githubId :=
            (List.pairwise_cons.mp hkeys).1 t2 ht2
          have hrowp : row.githubId = t.githubId := by
            simpa using List.find?_some hrow
          have hrow2p : row2.githubId = t2.githubId := by
            simpa using List.find?_some hrow2
          have hg2 : row2.githubId ≠ row.githubId := by
            rw [hrowp, hrow2p]
            exact fun hcon => hgid hcon.symm
          exact wf_ids db.tasks hwf row2 row
            (List.mem_of_find?_eq_some hrow2)
            (List.mem_of_find?_eq_some hrow) hg2
        refine ⟨row, hrow, ?_, ?_, ?_, ?_⟩
        · intro a ha h1 h2 h3
          have hm := hclose a ha h1 h2 h3
          have hf1 : ({ a with unassignedAt := some now } : AssignmentRow) ∈
              db1.assignments.filter (fun x => x.taskId = row.id) :=
            List.mem_filter.mpr ⟨hm, by simp [h1]⟩
          rw [← hslice] at hf1
          exact (List.mem_filter.mp hf1).1
        · intro a ha h1 h2 h3
          have hm := hkeep a ha h1 h2 h3
          have hf1 : a ∈ db1.assignments.filter (fun x => x.taskId = row.id) :=
            List.mem_filter.mpr ⟨hm, by simp [h1]⟩
          rw [← hslice] at hf1
          exact (List.mem_filter.mp hf1).1
        · intro s hsmem
          obtain ⟨a, ham, h1, h2, h3⟩ := hopen s hsmem
          have hf1 : a ∈ db1.assignments.filter (fun x => x.taskId = row.id) :=
            List.mem_filter.mpr ⟨ham, by simp [h1]⟩
          rw [← hslice] at hf1
          exact ⟨a, (List.mem_filter.mp hf1).1, h1, h2, h3⟩
        · intro a ha h1 h2
          have hf1 : a ∈ db2.assignments.filter (fun x => x.taskId = row.id) :=
            List.mem_filter.mpr ⟨ha, by simp [h1]⟩
          rw [hslice] at hf1
          exact honly a (List.mem_filter.mp hf1).1 h1 h2
    · by_cases hemp : t0.assignees.isEmpty = true
      · rw [if_pos hemp] at hrun
        exact ih db db2 hwf (List.pairwise_cons.mp hkeys).2 hrun t htr hne
      · rw [if_neg hemp] at hrun
        cases hs : syncTaskAssignments db t0.githubId t0.assignees now with
        | error e =>
          rw [hs] at hrun
          injection hrun with h1 h2
          exact Option.noConfusion h2
        | ok db1 =>
          rw [hs] at hrun
          have htasks1 : db1.tasks = db.tasks :=
            sync_tasks_const db db1 _ _ _ hs
          have hwf1 : db1.tasks.Pairwise
              (fun r1 r2 => r1.id ≠ r2.id ∧ r1.githubId ≠ r2.githubId) := by
            rwa [htasks1]
          obtain ⟨row, hrow1, hclose, hkeep, hopen, honly⟩ :=
            ih db1 db2 hwf1 (List.pairwise_cons.mp hkeys).2 hrun t htr hne
          rw [htasks1] at hrow1
          have hgid : t0.githubId ≠ t.githubId :=
            (List.pairwise_cons.mp hkeys).1 t htr
          have hslice0 : db1.assignments.filter (fun a => a.taskId = row.id) =
              db.assignments.filter (fun a => a.taskId = row.id) := by
            refine sync_other db db1 t0.githubId t0.assignees now row.id hs ?_
            intro row0 hrow0
            have hrowp : row.githubId = t.githubId := by
              simpa using List.find?_some hrow1
            have hrow0p : row0.githubId = t0.githubId := by
              simpa using List.find?_some hrow0
            have hg2 : row0.githubId ≠ row.githubId := by
              rw [hrowp, hrow0p]
              exact hgid
            exact wf_ids db.tasks hwf row0 row
              (List.mem_of_find?_eq_some hrow0)
              (List.mem_of_find?_eq_some hrow1) hg2
          refine ⟨row, hrow1, ?_, ?_, hopen, honly⟩
          · intro a ha h1 h2 h3
            have hf1 : a ∈ db.assignments.filter (fun x => x.taskId = row.id) :=
              List.mem_filter.mpr ⟨ha, by simp [h1]⟩
            rw [← hslice0] at hf1
            exact hclose a (List.mem_filter.mp hf1).1 h1 h2 h3
          · intro a ha h1 h2 h3
            have hf1 : a ∈ db.assignments.filter (fun x => x.taskId = row.id) :=
              List.mem_filter.mpr ⟨ha, by simp [h1]⟩
            rw [← hslice0] at hf1
            exact hkeep a (List.mem_filter.mp hf1).1 h1 h2 h3

/-- Witness for C3 at a concrete input: syncing the report that bob is
the task's assignee against a store where alice holds the open
assignment gives bob an open assignment (and, per `dbAliceSynced`,
stamps alice's row). -/
theorem syncPhase_reconciles_witness :
    ∃ row, dbAlice.tasks.find? (fun r => r.githubId = "o/r#1") = some row ∧
      ∃ a, a ∈ dbAliceSynced.assignments ∧ a.taskId = row.id ∧
        a.assignee = "bob" ∧ a.unassignedAt = none := by
  obtain ⟨row, hrow, hclose, hkeep, hopen, honly⟩ :=
    syncPhase_reconciles 100
      [sampleTask "o/r#1" "p1" TaskState.OPEN none ["bob"]]
      dbAlice dbAliceSynced (by simp [dbAlice]) (by simp) (by rfl)
      (sampleTask "o/r#1" "p1" TaskState.OPEN none ["bob"])
      (List.mem_singleton.mpr rfl) (by simp [sampleTask])
  refine ⟨row, hrow, ?_⟩
  exact hopen "bob" (by simp [sampleTask])

/-- C3 (counterexample to the claim as stated): a cycle that fetches
the task with an EMPTY reported assignee set completes successfully,
yet alice's previously open assignment of that task survives open even
though alice is not in the reported set — the loop skips tasks with no
reported assignees, so the claim fails for them. -/
theorem poll_sync_counterexample :
    (poll (Except.ok [sampleTask "o/r#1" "p1" TaskState.OPEN none []]) 5000
      { sched := idleSched, db := dbAlice }).sched.lastRunStatus =
      some RunStatus.success ∧
    ¬ (∀ a ∈ (poll
        (Except.ok [sampleTask "o/r#1" "p1" TaskState.OPEN none []]) 5000
        { sched := idleSched, db := dbAlice }).db.assignments,
        a.taskId = 1 → a.unassignedAt = none →
        a.assignee ∈
          (sampleTask "o/r#1" "p1" TaskState.OPEN none []).assignees) := by
  constructor
  · rfl
  · intro hall
    have hassign : (poll
        (Except.ok [sampleTask "o/r#1" "p1" TaskState.OPEN none []]) 5000
        { sched := idleSched, db := dbAlice }).db.assignments =
        [{ taskId := 1, assignee := "alice", assignedAt := 0,
           unassignedAt := none }] := by rfl
    have hmem : ({ taskId := 1, assignee := "alice", assignedAt := 0,
                   unassignedAt := none } : AssignmentRow) ∈
        (poll (Except.ok [sampleTask "o/r#1" "p1" TaskState.OPEN none []])
          5000 { sched := idleSched, db := dbAlice }).db.assignments := by
      rw [hassign]
      exact List.mem_singleton.mpr rfl
    have h := hall _ hmem rfl rfl
    simp [sampleTask] at h

/-- C4 (amended): the backfill writes one row per day for the window
through today, oldest first; the row for the day `k` days back carries
its calendar date and counts computed at the snapshot instant `now`
shifted back `k` whole days (the run's time of day preserved, not the
end of that calendar day): total counts tasks created by that instant,
closed counts those of them terminal and last updated by that instant,
open is their difference, and overdue counts the existing tasks with a
due date strictly before the instant that were open at it. -/
theorem backfillRows_spec (tasks : List Task) (now k : Nat)
    (hk : k ≤ backfillDays) :
    (backfillRows tasks now).length = backfillDays + 1 ∧
    ∃ row, (backfillRows tasks now)[backfillDays - k]? = some row ∧
      row.snapshotDate = dayOf (backfillInstant now k) ∧
      row.totalTasks = (tasks.filter
        (fun t => t.createdAt ≤ backfillInstant now k)).length ∧
      row.closedTasks = (tasks.filter
        (fun t => t.createdAt ≤ backfillInstant now k ∧
          (t.state = TaskState.CLOSED ∨ t.state = TaskState.MERGED) ∧
          t.updatedAt ≤ backfillInstant now k)).length ∧
      row.openTasks = row.totalTasks - row.closedTasks ∧
      row.overdueTasks = (tasks.filter
        (fun t => decide (t.createdAt ≤ backfillInstant now k) &&
          match t.dueDate with
          | none => false
          | some due =>
            (decide (¬ (t.state = TaskState.CLOSED ∨
                t.state = TaskState.MERGED)) ||
              decide (backfillInstant now k < t.updatedAt)) &&
            decide (due < backfillInstant now k))).length := by
  constructor
  · simp [backfillRows]
  · refine ⟨backfillRow tasks now k, ?_, rfl, rfl, rfl, rfl, rfl⟩
    unfold backfillRows
    rw [List.getElem?_map, List.getElem?_range (by omega)]
    have harg : backfillDays - (backfillDays - k) = k := by omega
    simp [harg]

/-- Witness for C4 at a concrete input: the empty task set and k = 0. -/
theorem backfillRows_spec_witness :
    (backfillRows [] 200000).length = backfillDays + 1 ∧
    ∃ row, (backfillRows [] 200000)[backfillDays - 0]? = some row ∧
      row.totalTasks = 0 := by
  obtain ⟨hlen, row, hget, _, htot, _⟩ :=
    backfillRows_spec [] 200000 0 (by decide)
  refine ⟨hlen, row, hget, ?_⟩
  rw [htot]
  rfl

/-- C4 (counterexample to the claim as stated): the backfill runs at
noon of day 100 (now = 144720) with one task created at 23:00 of day
100 (created = 145380). The row written for today compares creation
against the run instant, so it reports totalAtTime = 0, while the
claim's end-of-day-d rule would count the task (1). -/
theorem backfill_endOfDay_counterexample :
    (backfillRows [sampleTaskAt 145380 145380 TaskState.OPEN none]
      144720)[backfillDays]? =
      some (backfillRow [sampleTaskAt 145380 145380 TaskState.OPEN none]
        144720 0) ∧
    (backfillRow [sampleTaskAt 145380 145380 TaskState.OPEN none]
      144720 0).snapshotDate = dayOf 144720 ∧
    (backfillRow [sampleTaskAt 145380 145380 TaskState.OPEN none]
      144720 0).totalTasks = 0 ∧
    claimTotalAtEndOfDay [sampleTaskAt 145380 145380 TaskState.OPEN none]
      (dayOf 144720) = 1 := by
  refine ⟨?_, by decide, by decide, by decide⟩
  decide

end GHMonitoring
